import Mathlib

/-!
Shallow embedding of the concurrent grid-simulation program (src/src/main.rs).

Modelling conventions:
* Machine integers (`usize`, `u32`) are modelled as `Nat`; the torus
  wraparound arithmetic in `move_randomly`, which mixes signed offsets with
  unsigned coordinates, is modelled on `Int` with `%` exactly as the Rust
  source computes it, then converted back with `Int.toNat`.
* `rand::thread_rng()` is modelled as an explicit stream of numbers
  (`Rng := List Nat`); `rng.gen_range(0..n)` consumes one element of the
  stream and reduces it modulo `n`.  The stream is an input, since the
  program seeds it from the environment, not from the map seed.
* The Perlin-noise test `perlin.get([x/10, y/10]) > 0.4` is a pure
  function of the seed and the coordinates; it is abstracted as a boolean
  function `noise : Nat -> Nat -> Bool` (one such function per seed).
* `std::collections::HashSet<(usize, usize)>` is modelled by the list of
  its elements in iteration order.  Insertion of an element already present
  leaves the set unchanged; insertion of a new element is modelled as an
  append, but the actual container gives no ordering guarantee, which is
  captured separately by `hashIterOf` (any permutation of the elements is a
  possible iteration order of the real container).
* Lock acquisitions of the three shared resources named by the spec are
  recorded as an event trace (`LockEv`) threaded through the tick.
-/

def MAX_INVENTORY : Nat := 5

abbrev Coord := Nat × Nat

abbrev Rng := List Nat

/-- `rng.gen_range(0..n)`: one draw from the stream, reduced modulo `n`. -/
def genRange (rng : Rng) (n : Nat) : Nat × Rng :=
  (rng.headD 0 % n, rng.tail)

inductive RobotType where
  | Explorer
  | Miner
deriving DecidableEq, Repr

structure Map where
  width : Nat
  height : Nat
  data : List (List Char)
  base_x : Nat
  base_y : Nat
deriving DecidableEq, Repr

/-- `map.data[y][x]` (out-of-range reads yield a dummy; all program reads are
in bounds). -/
def cellAt (m : Map) (x y : Nat) : Char :=
  (m.data.getD y []).getD x ' '

/-- `map.data[y][x] = c` (out-of-range writes are dropped; all program writes
are in bounds). -/
def setCell (m : Map) (x y : Nat) (c : Char) : Map :=
  { m with data := m.data.set y ((m.data.getD y []).set x c) }

structure Robot where
  id : Nat
  x : Nat
  y : Nat
  robot_type : RobotType
  inventory : Nat
  target : Option Coord
  paused : Bool
deriving DecidableEq, Repr

instance : Inhabited Robot :=
  ⟨{ id := 0, x := 0, y := 0, robot_type := RobotType.Explorer,
     inventory := 0, target := none, paused := false }⟩

/-- `Robot::new`. -/
def robotNew (id x y : Nat) (t : RobotType) : Robot :=
  { id := id, x := x, y := y, robot_type := t,
    inventory := 0, target := none, paused := false }

/-- The four cardinal directions, in the order of the source array. -/
def directions : List (Int × Int) :=
  [(-1, 0), (1, 0), (0, -1), (0, 1)]

/-- `Robot::move_randomly`: draw a cardinal direction, wrap around the torus,
and step only if the destination cell is not an obstacle. -/
def moveRandomly (r : Robot) (width height : Nat) (m : Map) (rng : Rng) :
    Robot × Rng :=
  let d := genRange rng directions.length
  let dir := directions.getD d.1 (0, 0)
  let new_x : Int := ((Int.ofNat r.x + dir.1) + Int.ofNat width) % Int.ofNat width
  let new_y : Int := ((Int.ofNat r.y + dir.2) + Int.ofNat height) % Int.ofNat height
  if cellAt m new_x.toNat new_y.toNat ≠ '#' then
    ({ r with x := new_x.toNat, y := new_y.toNat }, d.2)
  else
    (r, d.2)

/-- One-step approach on a single axis, as in `Robot::move_towards`:
increment when below the target, decrement when above, stay when aligned. -/
def stepToward (a b : Nat) : Nat :=
  if a < b then a + 1 else if b < a then a - 1 else a

/-- `Robot::move_towards`: one simultaneous step in x and y toward the target
(diagonals allowed); if the destination is an obstacle the directed step is
abandoned and one random step is taken instead. -/
def moveTowards (r : Robot) (target : Coord) (m : Map) (rng : Rng) :
    Robot × Rng :=
  let new_x := stepToward r.x target.1
  let new_y := stepToward r.y target.2
  if cellAt m new_x new_y ≠ '#' then
    ({ r with x := new_x, y := new_y }, rng)
  else
    moveRandomly r m.width m.height m rng

example :
    (moveTowards (robotNew 1 0 0 RobotType.Miner) (2, 2)
      ⟨3, 3, [['.', '.', '.'], ['.', '.', '.'], ['.', '.', '.']], 1, 1⟩
      []).1.x = 1 := by decide

example :
    (moveRandomly (robotNew 0 0 0 RobotType.Explorer) 3 3
      ⟨3, 3, [['.', '.', '.'], ['.', '.', '.'], ['.', '.', '.']], 1, 1⟩
      [0]).1.x = 2 := by decide

/-! ### Map generation (`Map::new`) -/

/-- The terrain before resource placement: obstacles where the seeded noise
exceeds the threshold, then the base stamped at the centre. -/
def initialTerrain (noise : Nat → Nat → Bool) (width height : Nat) :
    List (List Char) :=
  let data := (List.range height).map fun y =>
    (List.range width).map fun x => if noise x y then '#' else '.'
  data.set (height / 2) ((data.getD (height / 2) []).set (width / 2) 'S')

/-- The resource-placement loop of `Map::new`: repeatedly draw a cell; if it
is empty, draw a resource kind and place it, until `remaining` resources are
placed.  The loop stops early if the modelled random stream runs out (the
real generator is inexhaustible). -/
def placeResources (m : Map) (remaining : Nat) : Rng → Map
  | [] => m
  | [_] => m
  | r1 :: r2 :: rng2 =>
    if remaining = 0 then m
    else
      let x := r1 % m.width
      let y := r2 % m.height
      if cellAt m x y = '.' then
        match rng2 with
        | [] => m
        | r3 :: rng3 =>
          placeResources (setCell m x y (if r3 % 2 = 0 then 'M' else 'E'))
            (remaining - 1) rng3
      else
        placeResources m remaining rng2

/-- `Map::new width height seed`, with the seed's Perlin predicate passed as
`noise` and the unseeded `thread_rng` passed as an explicit stream. -/
def mapNew (noise : Nat → Nat → Bool) (width height : Nat) (rng : Rng) : Map :=
  placeResources
    { width := width, height := height,
      data := initialTerrain noise width height,
      base_x := width / 2, base_y := height / 2 }
    (width * height / 10) rng

/-- `Map::clone_map` (also `map.clone()` sent on the snapshot channel): a
field-by-field deep copy. -/
def cloneMap (m : Map) : Map :=
  { width := m.width, height := m.height, data := m.data,
    base_x := m.base_x, base_y := m.base_y }

example :
    cellAt (mapNew (fun _ _ => false) 5 2 [0, 0, 0]) 0 0 = 'M' := by decide

example :
    cellAt (mapNew (fun _ _ => false) 5 2 [0, 0, 0]) 2 1 = 'S' := by decide

/-! ### The resource-claim registry

`reported_resources : HashSet<(usize, usize)>`, modelled as the list of its
elements in iteration order. -/

abbrev Registry := List Coord

/-- `rep.insert(coord)`: no change when already present; a new element lands
at an unspecified place in the iteration order (appended here; `hashIterOf`
captures the absence of an ordering guarantee). -/
def regInsert (reg : Registry) (c : Coord) : Registry :=
  if c ∈ reg then reg else reg ++ [c]

/-- `rep.remove(&coord)`. -/
def regRemove (reg : Registry) (c : Coord) : Registry :=
  reg.erase c

/-- A `HashSet` promises only which elements it holds, never an order: any
permutation of the element list is a possible iteration order of the real
container. -/
def hashIterOf (elems iter : List Coord) : Prop :=
  iter.Perm elems

/-- The guarded depletion performed on arrival (`if cell is M or E, set it
to '.'`); leaves the grid unchanged on any other cell content. -/
def deplete (m : Map) (x y : Nat) : Map :=
  if cellAt m x y = 'M' ∨ cellAt m x y = 'E' then setCell m x y '.' else m

/-! ### The per-agent tick (`Robot::perform_task` and the thread bodies)

Acquisitions and releases of the three locks named by the spec (the world
grid, the agent list, the claim registry) are recorded as an event trace;
the log-buffer lock is its own independent lock and is not traced. -/

inductive LockEv where
  | acqMap
  | acqRobots
  | acqReg
  | relReg
  | relRobots
  | relMap
deriving DecidableEq, Repr

structure TickOut where
  robot : Robot
  map : Map
  reg : Registry
  rng : Rng
  events : List LockEv
deriving DecidableEq, Repr

/-- The Explorer arm of `perform_task`: report the cell under the robot when
it is a resource (briefly taking the registry lock), then wander one random
step. -/
def explorerStep (r : Robot) (m : Map) (reg : Registry) (rng : Rng) :
    TickOut :=
  let tile := cellAt m r.x r.y
  let rep : Registry × List LockEv :=
    if tile = 'M' ∨ tile = 'E' then
      (regInsert reg (r.x, r.y), [LockEv.acqReg, LockEv.relReg])
    else
      (reg, [])
  let mv := moveRandomly r m.width m.height m rng
  { robot := mv.1, map := m, reg := rep.1, rng := mv.2, events := rep.2 }

/-- The one-cell shift off the base performed by the waiting secondary Miner
(lines 187-193 of the source): step right of the base when that stays in
bounds, otherwise step left when possible.  No obstacle check is made. -/
def minerNudge (r : Robot) (m : Map) : Robot :=
  if r.x = m.base_x ∧ r.y = m.base_y then
    if m.base_x + 1 < m.width then { r with x := m.base_x + 1 }
    else if 0 < m.base_x then { r with x := m.base_x - 1 }
    else r
  else r

/-- The target-acquisition block (lines 204-231): when the Miner has no
target, take the registry lock; robot id 2 claims the second element of the
iteration order provided at least two are outstanding, any other Miner
claims the first element. -/
def acquireTarget (r : Robot) (reg : Registry) : Robot × List LockEv :=
  if r.target = none then
    let t : Option Coord :=
      if r.id = 2 then
        if 2 ≤ reg.length then reg.get? 1 else none
      else
        reg.get? 0
    (match t with
     | some c => { r with target := some c }
     | none => r,
     [LockEv.acqReg, LockEv.relReg])
  else
    (r, [])

/-- The Miner arm of `perform_task`. -/
def minerStep (r : Robot) (m : Map) (reg : Registry) (rng : Rng) : TickOut :=
  if r.inventory < MAX_INVENTORY then
    if r.id = 2 ∧ reg.length < 2 ∧ r.target = none then
      -- the waiting branch: nudge off the base, mark paused, early return,
      -- with the registry lock held across the branch
      let r1 := minerNudge r m
      let r2 := if r1.paused then r1 else { r1 with paused := true }
      { robot := r2, map := m, reg := reg, rng := rng,
        events := [LockEv.acqReg, LockEv.relReg] }
    else
      let r1 :=
        if r.id = 2 then { r with paused := false } else r
      let ev1 : List LockEv :=
        if r.id = 2 then [LockEv.acqReg, LockEv.relReg] else []
      let acq := acquireTarget r1 reg
      match acq.1.target with
      | some t =>
        let mv := moveTowards acq.1 t m rng
        let r2 := mv.1
        if r2.x = t.1 ∧ r2.y = t.2 then
          let r3 :=
            if cellAt m r2.x r2.y = 'M' ∨ cellAt m r2.x r2.y = 'E' then
              { r2 with inventory := r2.inventory + 1 }
            else r2
          { robot := { r3 with target := none },
            map := deplete m r2.x r2.y,
            reg := regRemove reg t, rng := mv.2,
            events := ev1 ++ acq.2 ++ [LockEv.acqReg, LockEv.relReg] }
        else
          { robot := r2, map := m, reg := reg, rng := mv.2,
            events := ev1 ++ acq.2 }
      | none =>
        let mv := moveRandomly acq.1 m.width m.height m rng
        { robot := mv.1, map := m, reg := reg, rng := mv.2,
          events := ev1 ++ acq.2 }
  else
    -- full inventory: head for the base and empty the inventory there
    let mv := moveTowards r (m.base_x, m.base_y) m rng
    let r1 := mv.1
    let r2 :=
      if r1.x = m.base_x ∧ r1.y = m.base_y then { r1 with inventory := 0 }
      else r1
    { robot := r2, map := m, reg := reg, rng := mv.2, events := [] }

/-- `Robot::perform_task`, dispatching on the robot type. -/
def performTask (r : Robot) (m : Map) (reg : Registry) (rng : Rng) :
    TickOut :=
  match r.robot_type with
  | RobotType.Explorer => explorerStep r m reg rng
  | RobotType.Miner => minerStep r m reg rng

/-! ### The shared state and one thread-loop iteration -/

structure SimState where
  map : Map
  robots : List Robot
  reg : Registry
  rng : Rng
deriving DecidableEq, Repr

structure TickResult where
  state : SimState
  snapshot : Map
  events : List LockEv
deriving DecidableEq, Repr

/-- One iteration of robot thread `i`: lock the map, lock the robot list,
run `perform_task` on a copy of robot `i`, write the copy back, send a clone
of the (possibly mutated) map on the snapshot channel, release both locks. -/
def robotTick (st : SimState) (i : Nat) : TickResult :=
  let out := performTask (st.robots.getD i default) st.map st.reg st.rng
  { state := { map := out.map, robots := st.robots.set i out.robot,
               reg := out.reg, rng := out.rng },
    snapshot := cloneMap out.map,
    events := LockEv.acqMap :: LockEv.acqRobots ::
              (out.events ++ [LockEv.relRobots, LockEv.relMap]) }

/-- The locks among the traced three taken by one iteration of the UI
thread (`render_ui`): it receives a snapshot from the channel and takes only
the robot-list lock while drawing. -/
def renderEvents : List LockEv := [LockEv.acqRobots, LockEv.relRobots]

/-- The roster created by `main`: one Explorer and two Miners, all starting
at the base. -/
def initialRobots (base_x base_y : Nat) : List Robot :=
  [robotNew 0 base_x base_y RobotType.Explorer,
   robotNew 1 base_x base_y RobotType.Miner,
   robotNew 2 base_x base_y RobotType.Miner]

/-- Checks that a trace fragment consists solely of immediately matched
registry acquire/release pairs: the registry lock is only ever taken
transiently. -/
def regPairsOnly : List LockEv → Bool
  | [] => true
  | LockEv.acqReg :: LockEv.relReg :: rest => regPairsOnly rest
  | _ => false

/-- A trace obeying the mandated discipline: the grid lock first, the
agent-list lock second, both held to the very end of the tick and released
in reverse order, and in between only brief registry acquire/release
pairs. -/
def lockDisciplined (tr : List LockEv) : Prop :=
  ∃ mid, tr = LockEv.acqMap :: LockEv.acqRobots ::
      (mid ++ [LockEv.relRobots, LockEv.relMap]) ∧
    regPairsOnly mid = true

/-- A 3-by-3 map with a single Ore cell at (1,1) and the base at (2,2);
a concrete scenario for the collection step. -/
def oreMap : Map :=
  { width := 3, height := 3,
    data := [['.', '.', '.'], ['.', 'M', '.'], ['.', '.', 'S']],
    base_x := 2, base_y := 2 }

/-- A Miner one diagonal step away from the Ore cell of `oreMap`, already
targeting it. -/
def oreMiner : Robot :=
  { id := 1, x := 0, y := 0, robot_type := RobotType.Miner,
    inventory := 0, target := some (1, 1), paused := false }

/-- A 10-by-10 fully open map; movement scenarios stay unobstructed. -/
def openMap : Map :=
  { width := 10, height := 10,
    data := List.replicate 10 (List.replicate 10 '.'),
    base_x := 5, base_y := 5 }

/-- A 3-by-1 map whose cell immediately right of the base is an Obstacle. -/
def nudgeMap : Map :=
  { width := 3, height := 1, data := [['.', 'S', '#']],
    base_x := 1, base_y := 0 }

/-- A minimal 2-by-1 map for the snapshot scenario. -/
def snapMap : Map :=
  { width := 2, height := 1, data := [['S', '.']], base_x := 0, base_y := 0 }

/-- Two rosters identical except for the Miner's inventory. -/
def snapRobotsA : List Robot :=
  [robotNew 0 0 0 RobotType.Explorer, robotNew 1 0 0 RobotType.Miner]

/-- See `snapRobotsA`. -/
def snapRobotsB : List Robot :=
  [robotNew 0 0 0 RobotType.Explorer,
   { robotNew 1 0 0 RobotType.Miner with inventory := 3 }]

/-! ## Helper lemmas -/

theorem getD_set_ne {α : Type} (l : List α) (i j : Nat) (a d : α)
    (h : i ≠ j) : (l.set i a).getD j d = l.getD j d := by
  induction l generalizing i j with
  | nil => simp
  | cons b t ih =>
    cases i with
    | zero =>
      cases j with
      | zero => exact absurd rfl h
      | succ j => simp [List.set, List.getD]
    | succ i =>
      cases j with
      | zero => simp [List.set, List.getD]
      | succ j => simpa [List.set, List.getD] using ih i j (by omega)

theorem getD_set_lt {α : Type} (l : List α) (i : Nat) (a d : α)
    (h : i < l.length) : (l.set i a).getD i d = a := by
  induction l generalizing i with
  | nil => simp at h
  | cons b t ih =>
    cases i with
    | zero => simp [List.set, List.getD]
    | succ i => simpa [List.set, List.getD] using ih i (by simpa using h)

theorem set_of_length_le {α : Type} (l : List α) (i : Nat) (a : α)
    (h : l.length ≤ i) : l.set i a = l := by
  induction l generalizing i with
  | nil => simp
  | cons b t ih =>
    cases i with
    | zero => simp at h
    | succ i => simpa [List.set] using ih i (by simpa using h)

theorem cellAt_setCell_ne (m : Map) (a b x y : Nat) (c : Char)
    (h : ¬(x = a ∧ y = b)) : cellAt (setCell m a b c) x y = cellAt m x y := by
  unfold cellAt setCell
  by_cases hy : y = b
  · subst hy
    have hx : x ≠ a := fun he => h ⟨he, rfl⟩
    by_cases hb : y < m.data.length
    · simp only []
      rw [getD_set_lt m.data y _ [] hb, getD_set_ne _ a x _ _ fun he => hx he.symm]
    · rw [set_of_length_le m.data y _ (by omega)]
  · simp only []
    rw [getD_set_ne m.data b y _ [] fun he => hy he.symm]

theorem cellAt_setCell_self (m : Map) (a b : Nat) (c : Char) :
    cellAt (setCell m a b c) a b = c ∨
      cellAt (setCell m a b c) a b = cellAt m a b := by
  unfold cellAt setCell
  by_cases hb : b < m.data.length
  · by_cases ha : a < (m.data.getD b []).length
    · left
      simp only []
      rw [getD_set_lt m.data b _ [] hb, getD_set_lt _ a _ _ ha]
    · right
      simp only []
      rw [getD_set_lt m.data b _ [] hb, set_of_length_le _ a _ (by omega)]
  · right
    rw [set_of_length_le m.data b _ (by omega)]

/-- A random step only relocates the robot: every other field is kept. -/
theorem moveRandomly_shape (r : Robot) (w h : Nat) (m : Map) (rng : Rng) :
    ∃ a b, (moveRandomly r w h m rng).1 = { r with x := a, y := b } := by
  simp only [moveRandomly]
  split
  · exact ⟨_, _, rfl⟩
  · exact ⟨r.x, r.y, rfl⟩

/-- A directed step only relocates the robot: every other field is kept. -/
theorem moveTowards_shape (r : Robot) (t : Coord) (m : Map) (rng : Rng) :
    ∃ a b, (moveTowards r t m rng).1 = { r with x := a, y := b } := by
  simp only [moveTowards]
  split
  · exact ⟨_, _, rfl⟩
  · exact moveRandomly_shape r m.width m.height m rng

theorem moveRandomly_inventory (r : Robot) (w h : Nat) (m : Map) (rng : Rng) :
    (moveRandomly r w h m rng).1.inventory = r.inventory := by
  obtain ⟨a, b, hab⟩ := moveRandomly_shape r w h m rng
  rw [hab]

theorem moveTowards_inventory (r : Robot) (t : Coord) (m : Map) (rng : Rng) :
    (moveTowards r t m rng).1.inventory = r.inventory := by
  obtain ⟨a, b, hab⟩ := moveTowards_shape r t m rng
  rw [hab]

theorem moveRandomly_target (r : Robot) (w h : Nat) (m : Map) (rng : Rng) :
    (moveRandomly r w h m rng).1.target = r.target := by
  obtain ⟨a, b, hab⟩ := moveRandomly_shape r w h m rng
  rw [hab]

theorem moveTowards_target (r : Robot) (t : Coord) (m : Map) (rng : Rng) :
    (moveTowards r t m rng).1.target = r.target := by
  obtain ⟨a, b, hab⟩ := moveTowards_shape r t m rng
  rw [hab]

/-- When the approached coordinate differs, one directed step shrinks the
axis distance by exactly one. -/
theorem stepToward_dist (a b : Nat) (h : a ≠ b) :
    Nat.dist (stepToward a b) b + 1 = Nat.dist a b := by
  unfold stepToward Nat.dist
  split_ifs <;> omega

theorem stepToward_self (a b : Nat) (h : a = b) : stepToward a b = a := by
  subst h
  simp [stepToward]

theorem placeResources_fields (m : Map) (k : Nat) (rng : Rng) :
    (placeResources m k rng).width = m.width ∧
    (placeResources m k rng).height = m.height ∧
    (placeResources m k rng).base_x = m.base_x ∧
    (placeResources m k rng).base_y = m.base_y := by
  induction m, k, rng using placeResources.induct <;>
    simp_all [placeResources, setCell]

/-- Resource placement only ever turns an Empty cell into a resource cell;
every other cell keeps its original content. -/
theorem placeResources_skeleton (m : Map) (k : Nat) (rng : Rng) (x y : Nat) :
    cellAt (placeResources m k rng) x y = cellAt m x y ∨
    (cellAt m x y = '.' ∧
      (cellAt (placeResources m k rng) x y = 'M' ∨
       cellAt (placeResources m k rng) x y = 'E')) := by
  induction m, k, rng using placeResources.induct
  case case1 => simp [placeResources]
  case case2 => simp [placeResources]
  case case3 => simp [placeResources]
  case case4 m rem r1 r2 h1 xx yy h2 =>
    left
    simp [placeResources, h1, h2]
  case case5 m rem r1 r2 h1 xx yy h2 r3 rng3 ih =>
    have hred : placeResources m rem (r1 :: r2 :: r3 :: rng3) =
        placeResources
          (setCell m (r1 % m.width) (r2 % m.height)
            (if r3 % 2 = 0 then 'M' else 'E')) (rem - 1) rng3 := by
      simp [placeResources, h1, h2]
    rw [hred]
    by_cases hxy : x = r1 % m.width ∧ y = r2 % m.height
    · obtain ⟨hx, hy⟩ := hxy
      subst hx; subst hy
      rcases cellAt_setCell_self m (r1 % m.width) (r2 % m.height)
          (if r3 % 2 = 0 then 'M' else 'E') with hs | hs
      · rcases ih with h3 | ⟨h3, h4⟩
        · right
          refine ⟨h2, ?_⟩
          rw [h3, hs]
          split <;> simp
        · right; exact ⟨h2, h4⟩
      · rcases ih with h3 | ⟨h3, h4⟩
        · left; rw [h3, hs]
        · right; rw [hs] at h3; exact ⟨h3, h4⟩
    · have hne := cellAt_setCell_ne m (r1 % m.width) (r2 % m.height) x y
        (if r3 % 2 = 0 then 'M' else 'E') hxy
      rcases ih with h3 | ⟨h3, h4⟩
      · left; rw [h3, hne]
      · right; rw [hne] at h3; exact ⟨h3, h4⟩
  case case6 m rem r1 r2 rng2 h1 xx yy h2 ih =>
    have hred : placeResources m rem (r1 :: r2 :: rng2) =
        placeResources m rem rng2 := by
      simp [placeResources, h1, h2]
    rw [hred]
    exact ih


theorem deplete_cases (m : Map) (a b : Nat) :
    deplete m a b = m ∨
    ((cellAt m a b = 'M' ∨ cellAt m a b = 'E') ∧
      deplete m a b = setCell m a b '.') := by
  unfold deplete
  split_ifs with h
  · right; exact ⟨h, rfl⟩
  · left; rfl

theorem performTask_explorer (r : Robot) (m : Map) (reg : Registry)
    (rng : Rng) (h : r.robot_type = RobotType.Explorer) :
    performTask r m reg rng = explorerStep r m reg rng := by
  unfold performTask
  rw [h]

theorem performTask_miner (r : Robot) (m : Map) (reg : Registry)
    (rng : Rng) (h : r.robot_type = RobotType.Miner) :
    performTask r m reg rng = minerStep r m reg rng := by
  unfold performTask
  rw [h]

/-- The only grid mutation a Miner tick can make is the guarded depletion of
a single cell. -/
theorem minerStep_map_shape (r : Robot) (m : Map) (reg : Registry)
    (rng : Rng) :
    (minerStep r m reg rng).map = m ∨
    ∃ a b, (minerStep r m reg rng).map = deplete m a b := by
  simp only [minerStep]
  set r1 := if r.id = 2 then { r with paused := false } else r with hr1
  set R := acquireTarget r1 reg with hR
  by_cases h1 : r.inventory < MAX_INVENTORY
  · rw [if_pos h1]
    by_cases h2 : r.id = 2 ∧ reg.length < 2 ∧ r.target = none
    · rw [if_pos h2]
      left; rfl
    · rw [if_neg h2]
      split
      next t heq =>
        by_cases harr : (moveTowards R.1 t m rng).1.x = t.1 ∧
            (moveTowards R.1 t m rng).1.y = t.2
        · rw [if_pos harr]
          right
          exact ⟨_, _, rfl⟩
        · rw [if_neg harr]
          left; rfl
      next heq =>
        left; rfl
  · rw [if_neg h1]
    left; rfl

/-- The grid mutation shape for any robot's tick. -/
theorem performTask_map_shape (r : Robot) (m : Map) (reg : Registry)
    (rng : Rng) :
    (performTask r m reg rng).map = m ∨
    ∃ a b, (performTask r m reg rng).map = deplete m a b := by
  cases hrt : r.robot_type
  · rw [performTask_explorer r m reg rng hrt]
    left; rfl
  · rw [performTask_miner r m reg rng hrt]
    exact minerStep_map_shape r m reg rng

theorem minerNudge_inventory (r : Robot) (m : Map) :
    (minerNudge r m).inventory = r.inventory := by
  unfold minerNudge
  split_ifs <;> rfl

theorem acquireTarget_inventory (r : Robot) (reg : Registry) :
    (acquireTarget r reg).1.inventory = r.inventory := by
  simp only [acquireTarget]
  split_ifs <;> first | rfl | (split <;> rfl)

theorem minerStep_inventory_shape (r : Robot) (m : Map) (reg : Registry)
    (rng : Rng) :
    (minerStep r m reg rng).robot.inventory = r.inventory ∨
    (r.inventory < MAX_INVENTORY ∧
      (minerStep r m reg rng).robot.inventory = r.inventory + 1) ∨
    (¬ r.inventory < MAX_INVENTORY ∧
      (minerStep r m reg rng).robot.inventory = 0 ∧
      (minerStep r m reg rng).robot.x = m.base_x ∧
      (minerStep r m reg rng).robot.y = m.base_y) := by
  simp only [minerStep]
  set r1 := if r.id = 2 then { r with paused := false } else r with hr1
  have hr1inv : r1.inventory = r.inventory := by
    rw [hr1]; split <;> rfl
  set R := acquireTarget r1 reg with hR
  have hRinv : R.1.inventory = r.inventory := by
    rw [hR, acquireTarget_inventory, hr1inv]
  by_cases h1 : r.inventory < MAX_INVENTORY
  · rw [if_pos h1]
    by_cases h2 : r.id = 2 ∧ reg.length < 2 ∧ r.target = none
    · rw [if_pos h2]
      left
      show (if (minerNudge r m).paused then minerNudge r m
            else { minerNudge r m with paused := true }).inventory = r.inventory
      split_ifs <;> simp [minerNudge_inventory]
    · rw [if_neg h2]
      split
      next t heq =>
        by_cases harr : (moveTowards R.1 t m rng).1.x = t.1 ∧
            (moveTowards R.1 t m rng).1.y = t.2
        · rw [if_pos harr]
          by_cases hres : cellAt m (moveTowards R.1 t m rng).1.x
                (moveTowards R.1 t m rng).1.y = 'M' ∨
              cellAt m (moveTowards R.1 t m rng).1.x
                (moveTowards R.1 t m rng).1.y = 'E'
          · right; left
            refine ⟨h1, ?_⟩
            show (if cellAt m (moveTowards R.1 t m rng).1.x
                    (moveTowards R.1 t m rng).1.y = 'M' ∨
                  cellAt m (moveTowards R.1 t m rng).1.x
                    (moveTowards R.1 t m rng).1.y = 'E' then
                  { (moveTowards R.1 t m rng).1 with
                    inventory := (moveTowards R.1 t m rng).1.inventory + 1 }
                else (moveTowards R.1 t m rng).1).inventory = r.inventory + 1
            rw [if_pos hres]
            show (moveTowards R.1 t m rng).1.inventory + 1 = r.inventory + 1
            rw [moveTowards_inventory, hRinv]
          · left
            show (if cellAt m (moveTowards R.1 t m rng).1.x
                    (moveTowards R.1 t m rng).1.y = 'M' ∨
                  cellAt m (moveTowards R.1 t m rng).1.x
                    (moveTowards R.1 t m rng).1.y = 'E' then
                  { (moveTowards R.1 t m rng).1 with
                    inventory := (moveTowards R.1 t m rng).1.inventory + 1 }
                else (moveTowards R.1 t m rng).1).inventory = r.inventory
            rw [if_neg hres]
            rw [moveTowards_inventory, hRinv]
        · rw [if_neg harr]
          left
          show (moveTowards R.1 t m rng).1.inventory = r.inventory
          rw [moveTowards_inventory, hRinv]
      next heq =>
        left
        show (moveRandomly R.1 m.width m.height m rng).1.inventory = r.inventory
        rw [moveRandomly_inventory, hRinv]
  · rw [if_neg h1]
    by_cases hbase : (moveTowards r (m.base_x, m.base_y) m rng).1.x = m.base_x ∧
        (moveTowards r (m.base_x, m.base_y) m rng).1.y = m.base_y
    · right; right
      refine ⟨h1, ?_, ?_, ?_⟩
      · show (if (moveTowards r (m.base_x, m.base_y) m rng).1.x = m.base_x ∧
              (moveTowards r (m.base_x, m.base_y) m rng).1.y = m.base_y then
              { (moveTowards r (m.base_x, m.base_y) m rng).1 with inventory := 0 }
            else (moveTowards r (m.base_x, m.base_y) m rng).1).inventory = 0
        rw [if_pos hbase]
      · show (if (moveTowards r (m.base_x, m.base_y) m rng).1.x = m.base_x ∧
              (moveTowards r (m.base_x, m.base_y) m rng).1.y = m.base_y then
              { (moveTowards r (m.base_x, m.base_y) m rng).1 with inventory := 0 }
            else (moveTowards r (m.base_x, m.base_y) m rng).1).x = m.base_x
        rw [if_pos hbase]
        exact hbase.1
      · show (if (moveTowards r (m.base_x, m.base_y) m rng).1.x = m.base_x ∧
              (moveTowards r (m.base_x, m.base_y) m rng).1.y = m.base_y then
              { (moveTowards r (m.base_x, m.base_y) m rng).1 with inventory := 0 }
            else (moveTowards r (m.base_x, m.base_y) m rng).1).y = m.base_y
        rw [if_pos hbase]
        exact hbase.2
    · left
      show (if (moveTowards r (m.base_x, m.base_y) m rng).1.x = m.base_x ∧
            (moveTowards r (m.base_x, m.base_y) m rng).1.y = m.base_y then
            { (moveTowards r (m.base_x, m.base_y) m rng).1 with inventory := 0 }
          else (moveTowards r (m.base_x, m.base_y) m rng).1).inventory = r.inventory
      rw [if_neg hbase]
      rw [moveTowards_inventory]

theorem getD_of_length_le {α : Type} (l : List α) (n : Nat) (d : α)
    (h : l.length ≤ n) : l.getD n d = d := by
  induction l generalizing n with
  | nil => simp [List.getD]
  | cons b tl ih =>
    cases n with
    | zero => simp at h
    | succ n => simpa [List.getD] using ih n (by simpa using h)

theorem cellAt_resource_bounds (m : Map) (x y : Nat)
    (h : cellAt m x y = 'M' ∨ cellAt m x y = 'E') :
    y < m.data.length ∧ x < (m.data.getD y []).length := by
  constructor
  · by_contra hy
    have he : cellAt m x y = ' ' := by
      unfold cellAt
      rw [getD_of_length_le m.data y [] (by omega)]
      simp [List.getD]
    rcases h with h | h <;> rw [he] at h <;> exact absurd h (by decide)
  · by_contra hx
    have he : cellAt m x y = ' ' := by
      unfold cellAt
      rw [getD_of_length_le (m.data.getD y []) x ' ' (by omega)]
    rcases h with h | h <;> rw [he] at h <;> exact absurd h (by decide)

theorem cellAt_setCell_pos (m : Map) (a b : Nat) (c : Char)
    (hb : b < m.data.length) (ha : a < (m.data.getD b []).length) :
    cellAt (setCell m a b c) a b = c := by
  unfold cellAt setCell
  simp only []
  rw [getD_set_lt m.data b _ [] hb, getD_set_lt _ a _ _ ha]

theorem acquireTarget_events (r : Robot) (reg : Registry) :
    (acquireTarget r reg).2 = [LockEv.acqReg, LockEv.relReg] ∨
    (acquireTarget r reg).2 = [] := by
  simp only [acquireTarget]
  split_ifs <;> first | (left; rfl) | (right; rfl)

theorem minerStep_events_pairs (r : Robot) (m : Map) (reg : Registry)
    (rng : Rng) :
    regPairsOnly (minerStep r m reg rng).events = true := by
  simp only [minerStep]
  set R := acquireTarget (if r.id = 2 then { r with paused := false } else r)
    reg with hR
  have hA : R.2 = [LockEv.acqReg, LockEv.relReg] ∨ R.2 = [] := by
    rw [hR]
    exact acquireTarget_events _ _
  by_cases h1 : r.inventory < MAX_INVENTORY
  · rw [if_pos h1]
    by_cases h2 : r.id = 2 ∧ reg.length < 2 ∧ r.target = none
    · rw [if_pos h2]
      rfl
    · rw [if_neg h2]
      split
      next t heq =>
        by_cases harr : (moveTowards R.1 t m rng).1.x = t.1 ∧
            (moveTowards R.1 t m rng).1.y = t.2
        · rw [if_pos harr]
          rcases hA with hA | hA <;> rw [hA] <;> split_ifs <;> rfl
        · rw [if_neg harr]
          rcases hA with hA | hA <;> rw [hA] <;> split_ifs <;> rfl
      next heq =>
        rcases hA with hA | hA <;> rw [hA] <;> split_ifs <;> rfl
  · rw [if_neg h1]
    rfl

theorem performTask_events_pairs (r : Robot) (m : Map) (reg : Registry)
    (rng : Rng) :
    regPairsOnly (performTask r m reg rng).events = true := by
  cases hrt : r.robot_type
  · rw [performTask_explorer r m reg rng hrt]
    simp only [explorerStep]
    split_ifs <;> rfl
  · rw [performTask_miner r m reg rng hrt]
    exact minerStep_events_pairs r m reg rng

/-! ## Claims -/

/-- C2, counterexample: map creation is not a pure function of the seed and
dimensions.  With the same noise predicate (same seed) and the same
dimensions, two runs whose thread-local random streams differ place the
resources differently, so the produced terrain layouts differ. -/
theorem map_generation_depends_on_thread_rng :
    mapNew (fun _ _ => false) 5 2 [0, 0, 0] ≠
    mapNew (fun _ _ => false) 5 2 [1, 0, 0] := by decide

/-- C2, amended: for a fixed seed (noise predicate) and dimensions, the
obstacle cells, the base cell, the dimensions and the base coordinates of
the created map are identical across runs whatever the random stream;
only the resource placement depends on the unseeded generator. -/
theorem map_generation_skeleton_deterministic
    (noise : Nat → Nat → Bool) (w h : Nat) (rng1 rng2 : Rng) (x y : Nat) :
    (cellAt (mapNew noise w h rng1) x y = '#' ↔
     cellAt (mapNew noise w h rng2) x y = '#') ∧
    (cellAt (mapNew noise w h rng1) x y = 'S' ↔
     cellAt (mapNew noise w h rng2) x y = 'S') ∧
    (mapNew noise w h rng1).width = (mapNew noise w h rng2).width ∧
    (mapNew noise w h rng1).height = (mapNew noise w h rng2).height ∧
    (mapNew noise w h rng1).base_x = (mapNew noise w h rng2).base_x ∧
    (mapNew noise w h rng1).base_y = (mapNew noise w h rng2).base_y := by
  have key : ∀ (rng : Rng) (c : Char), c ≠ 'M' → c ≠ 'E' → c ≠ '.' →
      (cellAt (mapNew noise w h rng) x y = c ↔
       cellAt { width := w, height := h,
                data := initialTerrain noise w h,
                base_x := w / 2, base_y := h / 2 } x y = c) := by
    intro rng c hM hE hD
    have hsk := placeResources_skeleton
      { width := w, height := h, data := initialTerrain noise w h,
        base_x := w / 2, base_y := h / 2 } (w * h / 10) rng x y
    unfold mapNew
    constructor
    · intro hc
      rcases hsk with h3 | ⟨h3, h4⟩
      · rw [← h3]; exact hc
      · rcases h4 with h4 | h4 <;> rw [hc] at h4
        · exact absurd h4 hM
        · exact absurd h4 hE
    · intro hc
      rcases hsk with h3 | ⟨h3, h4⟩
      · rw [h3]; exact hc
      · rw [hc] at h3
        exact absurd h3 hD
  have f1 := placeResources_fields
    { width := w, height := h, data := initialTerrain noise w h,
      base_x := w / 2, base_y := h / 2 } (w * h / 10) rng1
  have f2 := placeResources_fields
    { width := w, height := h, data := initialTerrain noise w h,
      base_x := w / 2, base_y := h / 2 } (w * h / 10) rng2
  refine ⟨?_, ?_, ?_, ?_, ?_, ?_⟩
  · exact (key rng1 '#' (by decide) (by decide) (by decide)).trans
      (key rng2 '#' (by decide) (by decide) (by decide)).symm
  · exact (key rng1 'S' (by decide) (by decide) (by decide)).trans
      (key rng2 'S' (by decide) (by decide) (by decide)).symm
  · unfold mapNew; rw [f1.1, f2.1]
  · unfold mapNew; rw [f1.2.1, f2.2.1]
  · unfold mapNew; rw [f1.2.2.1, f2.2.2.1]
  · unfold mapNew; rw [f1.2.2.2, f2.2.2.2]

/-- C7: the three coordination operations are idempotent no-ops and never
errors: reporting an already-present coordinate leaves the registry
unchanged, releasing an absent coordinate leaves the registry unchanged,
depleting an already-Empty cell leaves the grid unchanged, and repeating a
report or a depletion changes nothing further. -/
theorem coordination_ops_idempotent_noops
    (reg1 reg2 : Registry) (c1 c2 : Coord) (m : Map) (x y : Nat) :
    (c1 ∈ reg1 → regInsert reg1 c1 = reg1) ∧
    (c2 ∉ reg2 → regRemove reg2 c2 = reg2) ∧
    (cellAt m x y = '.' → deplete m x y = m) ∧
    regInsert (regInsert reg1 c1) c1 = regInsert reg1 c1 ∧
    deplete (deplete m x y) x y = deplete m x y := by
  refine ⟨fun hm => ?_, fun hm => ?_, fun hm => ?_, ?_, ?_⟩
  · simp [regInsert, hm]
  · simp [regRemove, List.erase_of_not_mem hm]
  · simp [deplete, hm]
  · by_cases hm : c1 ∈ reg1
    · simp [regInsert, hm]
    · simp [regInsert, hm]
  · by_cases hm : cellAt m x y = 'M' ∨ cellAt m x y = 'E'
    · simp only [deplete, if_pos hm]
      by_cases h2 : cellAt (setCell m x y '.') x y = 'M' ∨
          cellAt (setCell m x y '.') x y = 'E'
      · rw [if_pos h2]
        unfold setCell
        simp only []
        by_cases hb : y < m.data.length
        · rw [getD_set_lt m.data y _ [] hb, List.set_set, List.set_set]
        · rw [set_of_length_le m.data y _ (by omega),
            set_of_length_le m.data y _ (by omega)]
      · rw [if_neg h2]
    · simp only [deplete, if_neg hm]

/-- C7 witness: the no-ops observed at concrete inputs. -/
theorem coordination_ops_idempotent_noops_witness :
    regInsert [((1 : Nat), (1 : Nat))] (1, 1) = [(1, 1)] ∧
    regRemove [((2 : Nat), (2 : Nat))] (1, 1) = [(2, 2)] ∧
    deplete { width := 1, height := 1, data := [['.']],
              base_x := 0, base_y := 0 } 0 0 =
      { width := 1, height := 1, data := [['.']],
        base_x := 0, base_y := 0 } := by
  have h := coordination_ops_idempotent_noops [(1, 1)] [(2, 2)] (1, 1) (1, 1)
    { width := 1, height := 1, data := [['.']], base_x := 0, base_y := 0 } 0 0
  exact ⟨h.1 (by decide), h.2.1 (by decide), h.2.2.1 (by decide)⟩

/-- C8: `move_towards` takes one simultaneous step in x (when not aligned)
and in y (when not aligned) — a diagonal step is permitted — landing exactly
one closer on each misaligned axis; if the computed cell is an Obstacle the
directed step is abandoned for the tick and the result is exactly one random
cardinal step, by the very function used for Explorer wandering (hence with
the identical obstacle-rejection rule). -/
theorem move_towards_diagonal_step_and_fallback
    (r : Robot) (t : Coord) (m : Map) (rng : Rng) :
    (cellAt m (stepToward r.x t.1) (stepToward r.y t.2) ≠ '#' →
      (moveTowards r t m rng).1.x = stepToward r.x t.1 ∧
      (moveTowards r t m rng).1.y = stepToward r.y t.2 ∧
      (moveTowards r t m rng).2 = rng) ∧
    (cellAt m (stepToward r.x t.1) (stepToward r.y t.2) = '#' →
      moveTowards r t m rng = moveRandomly r m.width m.height m rng) ∧
    (r.x ≠ t.1 → Nat.dist (stepToward r.x t.1) t.1 + 1 = Nat.dist r.x t.1) ∧
    (r.x = t.1 → stepToward r.x t.1 = r.x) ∧
    (r.y ≠ t.2 → Nat.dist (stepToward r.y t.2) t.2 + 1 = Nat.dist r.y t.2) ∧
    (r.y = t.2 → stepToward r.y t.2 = r.y) := by
  refine ⟨fun hfree => ?_, fun hblock => ?_,
    fun hne => stepToward_dist r.x t.1 hne,
    fun heq => stepToward_self r.x t.1 heq,
    fun hne => stepToward_dist r.y t.2 hne,
    fun heq => stepToward_self r.y t.2 heq⟩
  · simp only [moveTowards]
    rw [if_pos hfree]
    exact ⟨rfl, rfl, rfl⟩
  · simp only [moveTowards]
    rw [if_neg (fun hc => hc hblock)]

/-- C8 witness: a free diagonal approach from (0,0) toward (2,2) lands on
(1,1) and leaves the random stream untouched; a blocked approach falls back
to the random step. -/
theorem move_towards_diagonal_step_and_fallback_witness :
    ((moveTowards (robotNew 1 0 0 RobotType.Miner) (2, 2)
        { width := 3, height := 3,
          data := [['.', '.', '.'], ['.', '.', '.'], ['.', '.', '.']],
          base_x := 1, base_y := 1 } [7]).1.x = stepToward 0 2 ∧
     (moveTowards (robotNew 1 0 0 RobotType.Miner) (2, 2)
        { width := 3, height := 3,
          data := [['.', '.', '.'], ['.', '.', '.'], ['.', '.', '.']],
          base_x := 1, base_y := 1 } [7]).1.y = stepToward 0 2 ∧
     (moveTowards (robotNew 1 0 0 RobotType.Miner) (2, 2)
        { width := 3, height := 3,
          data := [['.', '.', '.'], ['.', '.', '.'], ['.', '.', '.']],
          base_x := 1, base_y := 1 } [7]).2 = [7]) ∧
    Nat.dist (stepToward 0 2) 2 + 1 = Nat.dist 0 2 ∧
    moveTowards (robotNew 1 0 0 RobotType.Miner) (2, 2)
        { width := 3, height := 3,
          data := [['.', '.', '.'], ['.', '#', '.'], ['.', '.', '.']],
          base_x := 1, base_y := 1 } [7] =
      moveRandomly (robotNew 1 0 0 RobotType.Miner) 3 3
        { width := 3, height := 3,
          data := [['.', '.', '.'], ['.', '#', '.'], ['.', '.', '.']],
          base_x := 1, base_y := 1 } [7] := by
  refine ⟨(move_towards_diagonal_step_and_fallback
      (robotNew 1 0 0 RobotType.Miner) (2, 2)
      { width := 3, height := 3,
        data := [['.', '.', '.'], ['.', '.', '.'], ['.', '.', '.']],
        base_x := 1, base_y := 1 } [7]).1 (by decide),
    (move_towards_diagonal_step_and_fallback
      (robotNew 1 0 0 RobotType.Miner) (2, 2)
      { width := 3, height := 3,
        data := [['.', '.', '.'], ['.', '.', '.'], ['.', '.', '.']],
        base_x := 1, base_y := 1 } [7]).2.2.1 (by decide),
    (move_towards_diagonal_step_and_fallback
      (robotNew 1 0 0 RobotType.Miner) (2, 2)
      { width := 3, height := 3,
        data := [['.', '.', '.'], ['.', '#', '.'], ['.', '.', '.']],
        base_x := 1, base_y := 1 } [7]).2.1 (by decide)⟩

/-- C10: a tick mutates at most one grid cell; any mutation turns a Resource
cell into an Empty cell; Base and Obstacle cells are untouched by every
tick. -/
theorem tick_mutates_at_most_one_resource_cell
    (r : Robot) (m : Map) (reg : Registry) (rng : Rng) :
    (∀ x y, cellAt (performTask r m reg rng).map x y ≠ cellAt m x y →
      (cellAt m x y = 'M' ∨ cellAt m x y = 'E') ∧
      cellAt (performTask r m reg rng).map x y = '.') ∧
    (∀ x1 y1 x2 y2,
      cellAt (performTask r m reg rng).map x1 y1 ≠ cellAt m x1 y1 →
      cellAt (performTask r m reg rng).map x2 y2 ≠ cellAt m x2 y2 →
      x1 = x2 ∧ y1 = y2) ∧
    (∀ x y, cellAt m x y = 'S' →
      cellAt (performTask r m reg rng).map x y = 'S') ∧
    (∀ x y, cellAt m x y = '#' →
      cellAt (performTask r m reg rng).map x y = '#') := by
  rcases performTask_map_shape r m reg rng with hm | ⟨a, b, hm⟩
  · rw [hm]
    exact ⟨fun x y hc => absurd rfl hc, fun u v w z hc => absurd rfl hc,
      fun x y hc => hc, fun x y hc => hc⟩
  · rcases deplete_cases m a b with hd | ⟨hres, hd⟩
    · rw [hm, hd]
      exact ⟨fun x y hc => absurd rfl hc, fun u v w z hc => absurd rfl hc,
        fun x y hc => hc, fun x y hc => hc⟩
    · rw [hm, hd]
      have hchange : ∀ x y, cellAt (setCell m a b '.') x y ≠ cellAt m x y →
          x = a ∧ y = b := by
        intro x y hc
        by_contra hxy
        exact hc (cellAt_setCell_ne m a b x y '.' hxy)
      refine ⟨?_, ?_, ?_, ?_⟩
      · intro x y hc
        obtain ⟨hx, hy⟩ := hchange x y hc
        subst hx; subst hy
        refine ⟨hres, ?_⟩
        rcases cellAt_setCell_self m x y '.' with hs | hs
        · exact hs
        · exact absurd hs hc
      · intro x1 y1 x2 y2 hc1 hc2
        obtain ⟨hx1, hy1⟩ := hchange x1 y1 hc1
        obtain ⟨hx2, hy2⟩ := hchange x2 y2 hc2
        subst hx1; subst hy1; subst hx2; subst hy2
        exact ⟨rfl, rfl⟩
      · intro x y hc
        by_cases hxy : x = a ∧ y = b
        · obtain ⟨hx, hy⟩ := hxy
          subst hx; subst hy
          rcases hres with hr | hr <;> rw [hc] at hr <;> exact absurd hr (by decide)
        · rw [cellAt_setCell_ne m a b x y '.' hxy]
          exact hc
      · intro x y hc
        by_cases hxy : x = a ∧ y = b
        · obtain ⟨hx, hy⟩ := hxy
          subst hx; subst hy
          rcases hres with hr | hr <;> rw [hc] at hr <;> exact absurd hr (by decide)
        · rw [cellAt_setCell_ne m a b x y '.' hxy]
          exact hc

/-- C10 witness: a Miner collecting the Resource at (1,1) flips exactly that
cell to Empty while the Base cell at (0,0) stays intact. -/
theorem tick_mutates_at_most_one_resource_cell_witness :
    ((cellAt { width := 3, height := 3,
               data := [['S', '.', '.'], ['.', 'M', '.'], ['.', '.', '.']],
               base_x := 0, base_y := 0 } 1 1 = 'M' ∨
      cellAt { width := 3, height := 3,
               data := [['S', '.', '.'], ['.', 'M', '.'], ['.', '.', '.']],
               base_x := 0, base_y := 0 } 1 1 = 'E') ∧
     cellAt (performTask
        { id := 1, x := 0, y := 0, robot_type := RobotType.Miner,
          inventory := 0, target := some (1, 1), paused := false }
        { width := 3, height := 3,
          data := [['S', '.', '.'], ['.', 'M', '.'], ['.', '.', '.']],
          base_x := 0, base_y := 0 } [(1, 1)] []).map 1 1 = '.') ∧
    cellAt (performTask
        { id := 1, x := 0, y := 0, robot_type := RobotType.Miner,
          inventory := 0, target := some (1, 1), paused := false }
        { width := 3, height := 3,
          data := [['S', '.', '.'], ['.', 'M', '.'], ['.', '.', '.']],
          base_x := 0, base_y := 0 } [(1, 1)] []).map 0 0 = 'S' := by
  have h := tick_mutates_at_most_one_resource_cell
    { id := 1, x := 0, y := 0, robot_type := RobotType.Miner,
      inventory := 0, target := some (1, 1), paused := false }
    { width := 3, height := 3,
      data := [['S', '.', '.'], ['.', 'M', '.'], ['.', '.', '.']],
      base_x := 0, base_y := 0 } [(1, 1)] []
  exact ⟨h.1 1 1 (by decide), h.2.2.1 0 0 (by decide)⟩

/-- C5: for every agent, inventory stays within 0..MAX_INVENTORY across a
tick, and it is reset to 0 from a non-zero value only when the pre-tick
inventory was exactly MAX_INVENTORY and the post-tick position is the
Base. -/
theorem inventory_bounds_and_reset
    (r : Robot) (m : Map) (reg : Registry) (rng : Rng)
    (h : r.inventory ≤ MAX_INVENTORY) :
    (performTask r m reg rng).robot.inventory ≤ MAX_INVENTORY ∧
    ((performTask r m reg rng).robot.inventory = 0 → r.inventory ≠ 0 →
      r.inventory = MAX_INVENTORY ∧
      (performTask r m reg rng).robot.x = m.base_x ∧
      (performTask r m reg rng).robot.y = m.base_y) := by
  cases hrt : r.robot_type
  · rw [performTask_explorer r m reg rng hrt]
    have hinv : (explorerStep r m reg rng).robot.inventory = r.inventory := by
      show (moveRandomly r m.width m.height m rng).1.inventory = r.inventory
      exact moveRandomly_inventory r m.width m.height m rng
    constructor
    · rw [hinv]; exact h
    · intro h0 hne
      rw [hinv] at h0
      exact absurd h0 hne
  · rw [performTask_miner r m reg rng hrt]
    rcases minerStep_inventory_shape r m reg rng with
      hs | ⟨hlt, hs⟩ | ⟨hge, hs, hx, hy⟩
    · constructor
      · rw [hs]; exact h
      · intro h0 hne
        rw [hs] at h0
        exact absurd h0 hne
    · constructor
      · rw [hs]; omega
      · intro h0 hne
        rw [hs] at h0
        omega
    · constructor
      · rw [hs]
        exact Nat.zero_le _
      · intro h0 hne
        exact ⟨by omega, hx, hy⟩

/-- C5 witness: a full Miner one step from the Base reaches it and empties
its inventory there. -/
theorem inventory_bounds_and_reset_witness :
    (performTask
        { id := 1, x := 1, y := 0, robot_type := RobotType.Miner,
          inventory := 5, target := none, paused := false }
        { width := 2, height := 1, data := [['S', '.']],
          base_x := 0, base_y := 0 } [] []).robot.inventory ≤
      MAX_INVENTORY ∧
    ((5 : Nat) = MAX_INVENTORY ∧
      (performTask
        { id := 1, x := 1, y := 0, robot_type := RobotType.Miner,
          inventory := 5, target := none, paused := false }
        { width := 2, height := 1, data := [['S', '.']],
          base_x := 0, base_y := 0 } [] []).robot.x = 0 ∧
      (performTask
        { id := 1, x := 1, y := 0, robot_type := RobotType.Miner,
          inventory := 5, target := none, paused := false }
        { width := 2, height := 1, data := [['S', '.']],
          base_x := 0, base_y := 0 } [] []).robot.y = 0) := by
  have h := inventory_bounds_and_reset
    { id := 1, x := 1, y := 0, robot_type := RobotType.Miner,
      inventory := 5, target := none, paused := false }
    { width := 2, height := 1, data := [['S', '.']],
      base_x := 0, base_y := 0 } [] [] (by decide)
  exact ⟨h.1, h.2 (by decide) (by decide)⟩

/-- C6: when a Miner arrives at its target, inventory is incremented
exactly when the cell still holds a Resource, in which case the cell becomes
Empty in the same tick; the claim is released and the target cleared
unconditionally on arrival, and an already-Empty coordinate is never
credited. -/
theorem collection_exact_on_arrival
    (r : Robot) (m : Map) (reg : Registry) (rng : Rng) (t : Coord)
    (hrt : r.robot_type = RobotType.Miner)
    (hinv : r.inventory < MAX_INVENTORY)
    (htgt : r.target = some t)
    (hnd : reg.Nodup)
    (harr : (performTask r m reg rng).robot.x = t.1 ∧
            (performTask r m reg rng).robot.y = t.2) :
    ((performTask r m reg rng).robot.inventory = r.inventory + 1 ↔
      (cellAt m t.1 t.2 = 'M' ∨ cellAt m t.1 t.2 = 'E')) ∧
    ((cellAt m t.1 t.2 = 'M' ∨ cellAt m t.1 t.2 = 'E') →
      cellAt (performTask r m reg rng).map t.1 t.2 = '.') ∧
    (¬(cellAt m t.1 t.2 = 'M' ∨ cellAt m t.1 t.2 = 'E') →
      (performTask r m reg rng).robot.inventory = r.inventory ∧
      (performTask r m reg rng).map = m) ∧
    t ∉ (performTask r m reg rng).reg ∧
    (performTask r m reg rng).robot.target = none := by
  obtain ⟨rid, rx, ry, rrt, rinv, rtgt, rp⟩ := r
  simp only at hrt htgt hinv
  subst hrt
  subst htgt
  by_cases hid : rid = 2
  case pos =>
    subst hid
    simp [performTask, minerStep, acquireTarget, hinv] at harr ⊢
    split_ifs at harr ⊢ with hc hres
    · try rw [hc.1, hc.2] at hres
      obtain ⟨hb, ha⟩ := cellAt_resource_bounds m t.1 t.2 hres
      rcases hres with h | h <;>
        simp [moveTowards_inventory, deplete, regRemove, hc.1, hc.2, h,
          hnd.not_mem_erase, cellAt_setCell_pos m t.1 t.2 '.' hb ha]
    · try rw [hc.1, hc.2] at hres
      simp [moveTowards_inventory, deplete, regRemove, hc.1, hc.2, hres,
        hnd.not_mem_erase]
    · exact absurd harr hc
  case neg =>
    simp [performTask, minerStep, acquireTarget, hinv, hid] at harr ⊢
    split_ifs at harr ⊢ with hc hres
    · try rw [hc.1, hc.2] at hres
      obtain ⟨hb, ha⟩ := cellAt_resource_bounds m t.1 t.2 hres
      rcases hres with h | h <;>
        simp [moveTowards_inventory, deplete, regRemove, hc.1, hc.2, h,
          hnd.not_mem_erase, cellAt_setCell_pos m t.1 t.2 '.' hb ha]
    · try rw [hc.1, hc.2] at hres
      simp [moveTowards_inventory, deplete, regRemove, hc.1, hc.2, hres,
        hnd.not_mem_erase]
    · exact absurd harr hc

/-- C6 witness: a Miner one diagonal step from a reported Ore cell collects
it: inventory 0 becomes 1, the cell empties, the claim disappears, the
target is cleared. -/
theorem collection_exact_on_arrival_witness :
    ((performTask oreMiner oreMap [(1, 1)] []).robot.inventory = 0 + 1 ↔
      (cellAt oreMap 1 1 = 'M' ∨ cellAt oreMap 1 1 = 'E')) ∧
    ((cellAt oreMap 1 1 = 'M' ∨ cellAt oreMap 1 1 = 'E') →
      cellAt (performTask oreMiner oreMap [(1, 1)] []).map 1 1 = '.') ∧
    (¬(cellAt oreMap 1 1 = 'M' ∨ cellAt oreMap 1 1 = 'E') →
      (performTask oreMiner oreMap [(1, 1)] []).robot.inventory = 0 ∧
      (performTask oreMiner oreMap [(1, 1)] []).map = oreMap) ∧
    (1, 1) ∉ (performTask oreMiner oreMap [(1, 1)] []).reg ∧
    (performTask oreMiner oreMap [(1, 1)] []).robot.target = none :=
  collection_exact_on_arrival oreMiner oreMap [(1, 1)] [] (1, 1)
    (by decide) (by decide) (by decide) (by decide) (by decide)

/-- C9: every agent tick takes the grid lock first, the agent-list lock
second, holds both across the whole decision-and-mutation body (releasing
them last, in reverse order), and takes the registry lock only transiently,
in matched acquire/release pairs nested inside both; the UI loop touches
none of the three except a plain robot-list lock. -/
theorem tick_lock_discipline (st : SimState) (i : Nat) :
    lockDisciplined (robotTick st i).events ∧
    (∀ e ∈ renderEvents, e = LockEv.acqRobots ∨ e = LockEv.relRobots) := by
  constructor
  · exact ⟨(performTask (st.robots.getD i default) st.map st.reg st.rng).events,
      rfl, performTask_events_pairs _ _ _ _⟩
  · decide

/-- C1: the registry is a plain hash set, so its iteration order need not be
the discovery (insertion) order.  After discovering (0,0) and then (1,1),
the container may legitimately iterate as [(1,1), (0,0)] (any permutation is
a possible hash order), and then the primary Miner acquires (1,1) — not the
earliest outstanding coordinate — while the secondary acquires (0,0). -/
theorem hashset_order_breaks_primary_assignment :
    regInsert (regInsert [] (0, 0)) (1, 1) = [(0, 0), (1, 1)] ∧
    hashIterOf [(0, 0), (1, 1)] [(1, 1), (0, 0)] ∧
    (performTask
       { id := 1, x := 9, y := 9, robot_type := RobotType.Miner,
         inventory := 0, target := none, paused := false }
       openMap [(1, 1), (0, 0)] [0]).robot.target = some (1, 1) ∧
    (performTask
       { id := 2, x := 9, y := 9, robot_type := RobotType.Miner,
         inventory := 0, target := none, paused := false }
       openMap [(1, 1), (0, 0)] [0]).robot.target = some (0, 0) ∧
    ¬ ((1, 1) : Coord) = (0, 0) := by
  refine ⟨by decide, ?_, by decide, by decide, by decide⟩
  unfold hashIterOf
  decide

/-- C3: the waiting secondary Miner's one-cell nudge off the Base performs
no obstacle check: on a map whose cell right of the Base is an Obstacle, the
post-tick position of the waiting Miner is exactly that Obstacle cell. -/
theorem waiting_nudge_onto_obstacle :
    cellAt nudgeMap 2 0 = '#' ∧
    (performTask (robotNew 2 1 0 RobotType.Miner) nudgeMap [] []).robot.x = 2 ∧
    (performTask (robotNew 2 1 0 RobotType.Miner) nudgeMap [] []).robot.y = 0 := by
  decide

/-- C4, counterexample: the value published on the snapshot channel is a
copy of the grid only.  Two states whose agent lists differ (a Miner's
inventory 0 versus 3) publish identical snapshots, so a published snapshot
is not a copy of the agents. -/
theorem snapshot_contains_no_agents :
    (robotTick { map := snapMap, robots := snapRobotsA, reg := [], rng := [] }
        0).snapshot =
      (robotTick { map := snapMap, robots := snapRobotsB, reg := [], rng := [] }
        0).snapshot ∧
    ¬ (robotTick { map := snapMap, robots := snapRobotsA, reg := [], rng := [] }
        0).state.robots =
      (robotTick { map := snapMap, robots := snapRobotsB, reg := [], rng := [] }
        0).state.robots := by
  decide

/-- C4, amended: the published snapshot is a complete copy of the post-tick
grid, taken inside the locked region, and a tick preserves the roster size,
so the agent list the UI reads under its own lock always has the configured
number of agents. -/
theorem snapshot_is_complete_grid_copy (st : SimState) (i : Nat) :
    (robotTick st i).snapshot = (robotTick st i).state.map ∧
    (robotTick st i).state.robots.length = st.robots.length := by
  constructor
  · rfl
  · exact List.length_set st.robots i _
